import Mathlib

/-!
Verification development for the resource-access core of the blockless
runtime: the permission model, driver registry, raw HTTP/1.1 client and
host-call bridge, shallowly embedded from the Rust sources.
-/

namespace BlocklessRuntime

/-! ### ASCII helpers

`asciiLowerChar` models Rust's byte-wise ASCII lowercasing; `toAsciiLowercase`
models `str::to_ascii_lowercase` (and, for ASCII strings such as URI schemes,
coincides with `str::to_lowercase`). -/

def asciiLowerChar (c : Char) : Char :=
  if 65 ≤ c.toNat ∧ c.toNat ≤ 90 then Char.ofNat (c.toNat + 32) else c

def toAsciiLowercase (s : String) : String :=
  String.mk (s.data.map asciiLowerChar)

/-- `s` starts with `p` (Rust `str::starts_with`), on the character lists. -/
def strStartsWith (s p : String) : Bool :=
  p.data.isPrefixOf s.data

/-! ### Permission model (wasi-common/src/blockless/permission.rs)

```rust
pub struct Permission { pub url: String, pub schema: String }
impl Permission {
    pub fn is_permision(&self, url: &str) -> bool {
        url.to_ascii_lowercase().starts_with(&self.url)
    }
}
```
-/

structure Permission where
  url : String
  schema : String
  deriving DecidableEq

def Permission.is_permision (p : Permission) (url : String) : Bool :=
  strStartsWith (toAsciiLowercase url) p.url

/-- The specification's matching rule, written from the spec's words: the
candidate URL, compared ignoring ASCII case, begins with the permission's URL
prefix.  Both sides are lowercased before the comparison. -/
def specCaseIgnoringStartsWith (candidate pre : String) : Bool :=
  strStartsWith (toAsciiLowercase candidate) (toAsciiLowercase pre)

/-! ### Permissions container wrappers (permission.rs lines 269-341)

The inner `bls_permissions::BlsPermissionsContainer` lives in an external
crate; it is represented abstractly as a record of operation denotations, one
function per container operation the wrapper forwards to.  The wrapper methods
below are translated from the source one by one; note that the source of
`request_write` is literally `self.0.revoke_write(path)`. -/

inductive PermissionState where
  | Granted
  | GrantedPartial
  | Prompt
  | Denied
  deriving DecidableEq

/-- Abstract denotation of the external `BlsPermissionsContainer`: each field
gives the result of one inner operation (a `Result<PermissionState, AnyError>`
is modelled as `Except Unit PermissionState`). -/
structure BlsPermissionsContainer where
  revoke_read : Option String → Except Unit PermissionState
  revoke_write : Option String → Except Unit PermissionState
  request_read : Option String → Except Unit PermissionState
  request_write : Option String → Except Unit PermissionState

structure BlsRuntimePermissionsContainer where
  inner : BlsPermissionsContainer

/-- `pub fn revoke_write(&self, path) { self.0.revoke_write(path) }` -/
def BlsRuntimePermissionsContainer.revoke_write
    (c : BlsRuntimePermissionsContainer) (path : Option String) :
    Except Unit PermissionState :=
  c.inner.revoke_write path

/-- `pub fn request_write(&self, path) { self.0.revoke_write(path) }`
(source line 315: the body calls `revoke_write`, not `request_write`). -/
def BlsRuntimePermissionsContainer.request_write
    (c : BlsRuntimePermissionsContainer) (path : Option String) :
    Except Unit PermissionState :=
  c.inner.revoke_write path

/-- `pub fn request_read(&self, path) { self.0.request_read(path) }` -/
def BlsRuntimePermissionsContainer.request_read
    (c : BlsRuntimePermissionsContainer) (path : Option String) :
    Except Unit PermissionState :=
  c.inner.request_read path

/-! ### Driver registry (blockless-drivers/src/lib.rs)

```rust
fn insert_driver<T>(&mut self, driver: T) {
    let key = driver.name().to_lowercase();
    self.drivers.insert(key, Arc::new(driver));
}
fn find_driver(&self, uri: &str) -> Option<Arc<dyn Driver>> {
    let addr = match multiaddr::parse(uri.as_bytes()) { Err(_) => return None, Ok(a) => a };
    let schema = match addr.schema() { Err(_) => return None, Ok(s) => s.to_lowercase() };
    self.drivers.get(&schema).map(|d| d.clone())
}
```

The `HashMap<String, Arc<dyn Driver>>` is modelled as an association list with
replace-on-insert update and no duplicate keys; a driver value is its name
together with an identity tag distinguishing instances. -/

structure Driver where
  name : String
  id : Nat
  deriving DecidableEq

/-- `HashMap::insert`: replace the binding if the key is present, otherwise add
a new binding. -/
def updateAssoc {β : Type} : List (String × β) → String → β → List (String × β)
  | [], k, v => [(k, v)]
  | (k0, v0) :: rest, k, v =>
    if k0 = k then (k, v) :: rest else (k0, v0) :: updateAssoc rest k v

structure DriverConetxtImpl where
  drivers : List (String × Driver)

def DriverConetxtImpl.new : DriverConetxtImpl := ⟨[]⟩

def DriverConetxtImpl.insert_driver (ctx : DriverConetxtImpl) (d : Driver) :
    DriverConetxtImpl :=
  ⟨updateAssoc ctx.drivers (toAsciiLowercase d.name) d⟩

/-- Modelled from the spec: the `blockless_multiaddr` crate used by
`find_driver` is not under the sources; per the spec the registry "parses the
URI's scheme (using a multiaddr-style or standard URL parser)" and an
unparseable URI yields no driver.  The scheme is the nonempty text before the
first scheme separator; a URI without a separator or with an empty scheme does
not parse. -/
def takeUntilSep : List Char → Option (List Char)
  | ':' :: '/' :: '/' :: _ => some []
  | c :: rest => (takeUntilSep rest).map (fun l => c :: l)
  | [] => none

def parseSchema (uri : String) : Option String :=
  match takeUntilSep uri.data with
  | none => none
  | some [] => none
  | some cs => some (String.mk cs)

def DriverConetxtImpl.find_driver (ctx : DriverConetxtImpl) (uri : String) :
    Option Driver :=
  match parseSchema uri with
  | none => none
  | some s => ctx.drivers.lookup (toAsciiLowercase s)

/-! Lemmas about the association-map model of `HashMap`. -/

theorem lookup_updateAssoc_self {β : Type} (l : List (String × β)) (k : String)
    (v : β) : (updateAssoc l k v).lookup k = some v := by
  induction l with
  | nil => simp [updateAssoc, List.lookup]
  | cons hd tl ih =>
    rcases hd with ⟨k0, v0⟩
    by_cases h : k0 = k
    · simp [updateAssoc, h, List.lookup]
    · have hne : (k == k0) = false := beq_eq_false_iff_ne.mpr (Ne.symm h)
      simp [updateAssoc, h, List.lookup, hne, ih]

theorem lookup_updateAssoc_ne {β : Type} (l : List (String × β)) (k k' : String)
    (v : β) (hne : k' ≠ k) :
    (updateAssoc l k v).lookup k' = l.lookup k' := by
  have hb : (k' == k) = false := beq_eq_false_iff_ne.mpr hne
  induction l with
  | nil => simp [updateAssoc, List.lookup, hb]
  | cons hd tl ih =>
    rcases hd with ⟨k0, v0⟩
    by_cases h : k0 = k
    · subst h
      simp [updateAssoc, List.lookup, hb]
    · by_cases h' : k' = k0
      · have hb2 : (k' == k0) = true := beq_iff_eq.mpr h'
        simp [updateAssoc, h, List.lookup, hb2]
      · have hb2 : (k' == k0) = false := beq_eq_false_iff_ne.mpr h'
        simp [updateAssoc, h, List.lookup, hb2, ih]

theorem key_mem_updateAssoc {β : Type} (l : List (String × β)) (k : String)
    (v : β) (x : String) (hx : x ∈ (updateAssoc l k v).map Prod.fst) :
    x ∈ l.map Prod.fst ∨ x = k := by
  induction l with
  | nil =>
    simp [updateAssoc] at hx
    right; exact hx
  | cons hd tl ih =>
    rcases hd with ⟨k0, v0⟩
    by_cases h : k0 = k
    · simp only [updateAssoc, if_pos h, List.map_cons, List.mem_cons] at hx
      rcases hx with h1 | h1
      · right; exact h1
      · left; simp [List.mem_cons, h1]
    · simp only [updateAssoc, if_neg h, List.map_cons, List.mem_cons] at hx
      rcases hx with h1 | h1
      · left; simp [List.mem_cons, h1]
      · rcases ih h1 with h2 | h2
        · left; simp [List.mem_cons, h2]
        · right; exact h2

theorem keys_updateAssoc_nodup {β : Type} (l : List (String × β)) (k : String)
    (v : β) (h : (l.map Prod.fst).Nodup) :
    ((updateAssoc l k v).map Prod.fst).Nodup := by
  induction l with
  | nil => simp [updateAssoc]
  | cons hd tl ih =>
    rcases hd with ⟨k0, v0⟩
    simp only [List.map_cons, List.nodup_cons] at h
    by_cases hk : k0 = k
    · subst hk
      have he : updateAssoc ((k0, v0) :: tl) k0 v = (k0, v) :: tl := by
        simp [updateAssoc]
      rw [he]
      simp only [List.map_cons, List.nodup_cons]
      exact ⟨h.1, h.2⟩
    · simp only [updateAssoc, if_neg hk, List.map_cons, List.nodup_cons]
      refine ⟨fun hmem => ?_, ih h.2⟩
      rcases key_mem_updateAssoc tl k v k0 hmem with h2 | h2
      · exact h.1 h2
      · exact hk h2

/-! ### Error taxonomies (blockless-drivers/src/error.rs) -/

inductive IpfsErrorKind where
  | InvalidHandle
  | Utf8Error
  | InvalidMethod
  | InvalidEncoding
  | RequestError
  | RuntimeError
  | TooManySessions
  | PermissionDeny
  | InvalidParameter
  deriving DecidableEq

inductive HttpErrorKind where
  | InvalidDriver
  | InvalidHandle
  | MemoryAccessError
  | BufferTooSmall
  | HeaderNotFound
  | Utf8Error
  | DestinationNotAllowed
  | InvalidMethod
  | InvalidEncoding
  | InvalidUrl
  | RequestError
  | RuntimeError
  | TooManySessions
  | PermissionDeny
  deriving DecidableEq

inductive BlocklessSocketErrorKind where
  | AddressInUse
  | ConnectRefused
  | ConnectionReset
  | ParameterError
  deriving DecidableEq

/-! ### The witx-generated wire enum `types::HttpError` (wasi/http.rs)

Modelled from the spec: the witx interface definition that generates
`types::HttpError` is not under the sources.  Per the spec, the wire codes are
"small integer codes" with "a distinguished `Success`/zero value", so `Success`
is the zero discriminant and the remaining variants carry distinct successive
discriminants; the variant set is the one used by `wasi/http.rs` (the thirteen
variants of the `enum_2_u32!` invocation plus `InvalidDriver` and
`HeadersValidationError`, which the source's `From<HttpErrorKind>` conversion
also targets).  Only distinctness of the discriminants matters below. -/

inductive WireHttpError where
  | Success
  | InvalidHandle
  | MemoryAccessError
  | BufferTooSmall
  | HeaderNotFound
  | Utf8Error
  | DestinationNotAllowed
  | InvalidMethod
  | InvalidEncoding
  | InvalidUrl
  | RequestError
  | RuntimeError
  | PermissionDeny
  | TooManySessions
  | InvalidDriver
  | HeadersValidationError
  deriving DecidableEq

/-- The numeric wire code of a `types::HttpError` variant (`as u32` on the
generated enum). -/
def WireHttpError.code : WireHttpError → Nat
  | .Success => 0
  | .InvalidHandle => 1
  | .MemoryAccessError => 2
  | .BufferTooSmall => 3
  | .HeaderNotFound => 4
  | .Utf8Error => 5
  | .DestinationNotAllowed => 6
  | .InvalidMethod => 7
  | .InvalidEncoding => 8
  | .InvalidUrl => 9
  | .RequestError => 10
  | .RuntimeError => 11
  | .PermissionDeny => 12
  | .TooManySessions => 13
  | .InvalidDriver => 14
  | .HeadersValidationError => 15

/-- `impl From<u32> for HttpErrorKind` (wasi/http.rs lines 71-90): a `match`
on the thirteen constants produced by `enum_2_u32!`, with a wildcard arm
mapping everything else to `RuntimeError`.  The constant patterns are tested
in the order of the source's match arms. -/
def httpErrorKindFromU32 (i : Nat) : HttpErrorKind :=
  if i = WireHttpError.code .InvalidHandle then .InvalidHandle
  else if i = WireHttpError.code .MemoryAccessError then .MemoryAccessError
  else if i = WireHttpError.code .BufferTooSmall then .BufferTooSmall
  else if i = WireHttpError.code .HeaderNotFound then .HeaderNotFound
  else if i = WireHttpError.code .Utf8Error then .Utf8Error
  else if i = WireHttpError.code .DestinationNotAllowed then .DestinationNotAllowed
  else if i = WireHttpError.code .InvalidMethod then .InvalidMethod
  else if i = WireHttpError.code .InvalidEncoding then .InvalidEncoding
  else if i = WireHttpError.code .InvalidUrl then .InvalidUrl
  else if i = WireHttpError.code .RuntimeError then .RuntimeError
  else if i = WireHttpError.code .RequestError then .RequestError
  else if i = WireHttpError.code .TooManySessions then .TooManySessions
  else if i = WireHttpError.code .PermissionDeny then .PermissionDeny
  else .RuntimeError

/-- The thirteen wire codes named by the conversion's non-wildcard arms. -/
def namedHttpErrorCodes : List Nat :=
  [WireHttpError.code .InvalidHandle, WireHttpError.code .MemoryAccessError,
   WireHttpError.code .BufferTooSmall, WireHttpError.code .HeaderNotFound,
   WireHttpError.code .Utf8Error, WireHttpError.code .DestinationNotAllowed,
   WireHttpError.code .InvalidMethod, WireHttpError.code .InvalidEncoding,
   WireHttpError.code .InvalidUrl, WireHttpError.code .RequestError,
   WireHttpError.code .RuntimeError, WireHttpError.code .TooManySessions,
   WireHttpError.code .PermissionDeny]

/-! ### Socket driver (blockless-drivers/src/wasi/socket.rs) -/

inductive AddressFamily where
  | Inet4
  | Inet6
  | Unspec
  deriving DecidableEq

inductive SocketType where
  | Datagram
  | Stream
  | Any
  deriving DecidableEq

inductive Socket2Domain where
  | IPV4
  | IPV6
  deriving DecidableEq

inductive Socket2Type where
  | DGRAM
  | STREAM
  deriving DecidableEq

/-- `impl From<types::AddressFamily> for socket2::Domain` (socket.rs 78-86). -/
def domainFromFamily : AddressFamily → Socket2Domain
  | .Inet4 => .IPV4
  | .Unspec => .IPV4
  | .Inet6 => .IPV6

/-- `impl From<types::SocketType> for socket2::Type` (socket.rs 88-96). -/
def socket2TypeFromSocketType : SocketType → Socket2Type
  | .Datagram => .DGRAM
  | .Any => .DGRAM
  | .Stream => .STREAM

inductive SocketCreateOutcome where
  | ok (handle : Nat)
  | err (kind : BlocklessSocketErrorKind)
  | panicked
  deriving DecidableEq

/-- `WasiCtx::socket_create` (socket.rs 142-149):

```rust
async fn socket_create(&mut self, family, socket_type)
    -> Result<types::SocketHandle, BlocklessSocketErrorKind> {
    let sock = socket2::Socket::new(family.into(), socket_type.into(), None);
    todo!()
}
```

The body builds the domain and type arguments and then executes `todo!()`,
which unconditionally panics; no value is ever returned. -/
def socket_create (family : AddressFamily) (socketType : SocketType) :
    SocketCreateOutcome :=
  let _sock := (domainFromFamily family, socket2TypeFromSocketType socketType)
  .panicked

/-! ### Host-call bridge for HTTP (blockless-drivers/src/wasi/http.rs 100-128)

`WasiCtx::http_req` reads the guest URL string, parses it with `url::Url`,
runs `check_url_permissions`, reads the guest options string, and only then
invokes `http_driver::http_req`.  Guest memory, the `url` crate's parser, the
permission check (defined in wasi-common, outside these sources) and the http
driver are collaborators, so they enter the model as an environment of
denotations; the bridge records every driver invocation as an event so that
"no driver operation is performed" is a statement about the event trace. -/

structure HttpReqEnv where
  /-- `memory.as_str(url)`: the guest URL argument, or a memory/UTF-8 fault. -/
  readUrl : Except Unit String
  /-- `Url::from_str` from the external `url` crate. -/
  parseUrl : String → Option String
  /-- `WasiCtx::check_url_permissions` on the parsed URL. -/
  checkPerm : String → Bool
  /-- `memory.as_str(opts)`: the guest options argument. -/
  readOpts : Except Unit String
  /-- `http_driver::http_req(url, opts)`: returns `(fd, status code)`. -/
  driver : String → String → Except HttpErrorKind (Nat × Nat)

inductive BridgeEvent where
  | driverCall (url opts : String)
  deriving DecidableEq

def http_req (env : HttpReqEnv) :
    List BridgeEvent × Except HttpErrorKind (Nat × Nat) :=
  match env.readUrl with
  | .error _ => ([], .error .Utf8Error)
  | .ok url =>
    match env.parseUrl url with
    | none => ([], .error .InvalidUrl)
    | some parsed =>
      if env.checkPerm parsed = false then
        ([], .error .PermissionDeny)
      else
        match env.readOpts with
        | .error _ => ([], .error .Utf8Error)
        | .ok opts =>
          match env.driver url opts with
          | .error e => ([.driverCall url opts], .error e)
          | .ok (fd, code) => ([.driverCall url opts], .ok (fd, code))

/-! ### Claim theorems: permission matching, container wrappers, registry,
error conversion, socket creation, bridge ordering. -/

/-- C2, counterexample: `is_permision` is not a case-insensitive comparison of
the candidate against `url_prefix`.  With `url_prefix = "A"` and candidate
`"A"`, an ASCII-case-ignoring comparison says the candidate begins with the
prefix, but the code lowercases only the candidate and returns `false`. -/
theorem C2_counterexample :
    Permission.is_permision ⟨"A", "http"⟩ "A" = false
    ∧ specCaseIgnoringStartsWith "A" "A" = true := by
  decide

/-- C2, amended: `is_permision` lowercases only the candidate URL and tests
that the result starts with the literal `url_prefix`; whenever `url_prefix` is
already ASCII-lowercase this coincides with the case-ignoring comparison of
the claim, and in particular the prefix `"http://example.com"` matches both
`"http://example.com/path"` and `"http://example.com.evil.com"`. -/
theorem C2_prefix_match_amended :
    (∀ (p : Permission) (u : String), toAsciiLowercase p.url = p.url →
      p.is_permision u = specCaseIgnoringStartsWith u p.url)
    ∧ Permission.is_permision ⟨"http://example.com", "http"⟩
        "http://example.com/path" = true
    ∧ Permission.is_permision ⟨"http://example.com", "http"⟩
        "http://example.com.evil.com" = true := by
  refine ⟨fun p u h => ?_, by decide, by decide⟩
  unfold Permission.is_permision specCaseIgnoringStartsWith
  rw [h]

/-- C2 witness: the amended equivalence evaluated at a concrete lowercase
prefix and an upper-case candidate. -/
theorem C2_prefix_match_amended_witness :
    Permission.is_permision ⟨"http://example.com", "http"⟩
        "HTTP://EXAMPLE.COM/x"
      = specCaseIgnoringStartsWith "HTTP://EXAMPLE.COM/x" "http://example.com" :=
  C2_prefix_match_amended.1 ⟨"http://example.com", "http"⟩
    "HTTP://EXAMPLE.COM/x" (by decide)

/-- C10: `BlsRuntimePermissionsContainer::request_write` returns exactly what
`revoke_write` returns on every container and path — both forward to the inner
container's `revoke_write` — and it does not delegate to the inner request
operation. -/
theorem C10_request_write_equals_revoke_write :
    (∀ (c : BlsRuntimePermissionsContainer) (p : Option String),
      c.request_write p = c.revoke_write p)
    ∧ ∃ (c : BlsRuntimePermissionsContainer) (p : Option String),
      c.request_write p ≠ c.inner.request_write p := by
  refine ⟨fun c p => rfl, ?_⟩
  refine ⟨⟨⟨fun _ => .error (), fun _ => .error (),
            fun _ => .ok .Granted, fun _ => .ok .Granted⟩⟩, none, ?_⟩
  intro h
  exact Except.noConfusion h

/-- C5: scheme dispatch.  Registering a driver and resolving a URI whose
parsed scheme is any case-variant of the driver's name yields that driver;
resolving a URI whose lowercased scheme is absent from the table yields
`none`; resolving an unparseable URI yields `none` rather than an error. -/
theorem C5_scheme_resolution :
    (∀ (ctx : DriverConetxtImpl) (d : Driver) (uri v : String),
      parseSchema uri = some v →
      toAsciiLowercase v = toAsciiLowercase d.name →
      (ctx.insert_driver d).find_driver uri = some d)
    ∧ (∀ (ctx : DriverConetxtImpl) (uri v : String),
      parseSchema uri = some v →
      ctx.drivers.lookup (toAsciiLowercase v) = none →
      ctx.find_driver uri = none)
    ∧ (∀ (ctx : DriverConetxtImpl) (uri : String),
      parseSchema uri = none → ctx.find_driver uri = none) := by
  refine ⟨?_, ?_, ?_⟩
  · intro ctx d uri v hp hv
    simp only [DriverConetxtImpl.find_driver, DriverConetxtImpl.insert_driver, hp, hv]
    exact lookup_updateAssoc_self _ _ _
  · intro ctx uri v hp hl
    simp only [DriverConetxtImpl.find_driver, hp, hl]
  · intro ctx uri hp
    simp only [DriverConetxtImpl.find_driver, hp]

/-- C5 witness: register a driver named `"TCP"`, resolve the case-variant
scheme `"Tcp"`; an unregistered scheme and an unparseable URI resolve to
`none`. -/
theorem C5_scheme_resolution_witness :
    (DriverConetxtImpl.new.insert_driver ⟨"TCP", 0⟩).find_driver
        "Tcp://127.0.0.1:8080" = some ⟨"TCP", 0⟩
    ∧ DriverConetxtImpl.new.find_driver "http://host/path" = none
    ∧ DriverConetxtImpl.new.find_driver "no-scheme-here" = none :=
  ⟨C5_scheme_resolution.1 DriverConetxtImpl.new ⟨"TCP", 0⟩
      "Tcp://127.0.0.1:8080" "Tcp" (by decide) (by decide),
   C5_scheme_resolution.2.1 DriverConetxtImpl.new "http://host/path" "http"
      (by decide) (by decide),
   C5_scheme_resolution.2.2 DriverConetxtImpl.new "no-scheme-here" (by decide)⟩

/-- C6: last registration wins, and the registry keeps at most one driver per
scheme.  Registering `d1` then `d2` whose names lowercase to the same key
leaves the table resolving that key to `d2`, any URI with that scheme resolves
to `d2`, and insertion preserves the no-duplicate-keys invariant that the
empty registry starts with. -/
theorem C6_last_registration_wins :
    (∀ (ctx : DriverConetxtImpl) (d1 d2 : Driver),
      toAsciiLowercase d1.name = toAsciiLowercase d2.name →
      ((ctx.insert_driver d1).insert_driver d2).drivers.lookup
          (toAsciiLowercase d2.name) = some d2
      ∧ ∀ uri v, parseSchema uri = some v →
          toAsciiLowercase v = toAsciiLowercase d2.name →
          ((ctx.insert_driver d1).insert_driver d2).find_driver uri = some d2)
    ∧ (∀ (ctx : DriverConetxtImpl) (d : Driver),
      (ctx.drivers.map Prod.fst).Nodup →
      ((ctx.insert_driver d).drivers.map Prod.fst).Nodup)
    ∧ (DriverConetxtImpl.new.drivers.map Prod.fst).Nodup := by
  refine ⟨?_, ?_, by simp [DriverConetxtImpl.new]⟩
  · intro ctx d1 d2 _h
    constructor
    · exact lookup_updateAssoc_self _ _ _
    · intro uri v hp hv
      simp only [DriverConetxtImpl.find_driver, hp, hv]
      exact lookup_updateAssoc_self _ _ _
  · intro ctx d h
    exact keys_updateAssoc_nodup _ _ _ h

/-- C6 witness: registering `⟨"Http", 1⟩` then `⟨"HTTP", 2⟩` leaves the key
`"http"` bound to the second driver and resolves a `"http"` URI to it. -/
theorem C6_last_registration_wins_witness :
    ((DriverConetxtImpl.new.insert_driver ⟨"Http", 1⟩).insert_driver
        ⟨"HTTP", 2⟩).drivers.lookup "http" = some ⟨"HTTP", 2⟩
    ∧ ((DriverConetxtImpl.new.insert_driver ⟨"Http", 1⟩).insert_driver
        ⟨"HTTP", 2⟩).find_driver "http://host/path" = some ⟨"HTTP", 2⟩
    ∧ ((DriverConetxtImpl.new.insert_driver ⟨"Http", 1⟩).drivers.map
        Prod.fst).Nodup := by
  have h := C6_last_registration_wins.1 DriverConetxtImpl.new
      ⟨"Http", 1⟩ ⟨"HTTP", 2⟩ (by decide)
  have h2 := C6_last_registration_wins.2.1 DriverConetxtImpl.new ⟨"Http", 1⟩
      (by simp [DriverConetxtImpl.new])
  exact ⟨h.1, h.2 "http://host/path" "http" (by decide) (by decide), h2⟩

/-- C9, counterexample: the wire code of `types::HttpError::InvalidDriver` is
a known `HttpError` code with a matching `HttpErrorKind` variant, yet the
`From<u32>` conversion sends it to `RuntimeError` (its match arms name only
thirteen constants; `InvalidDriver` is not among them). -/
theorem C9_counterexample :
    httpErrorKindFromU32 (WireHttpError.code .InvalidDriver)
        = HttpErrorKind.RuntimeError
    ∧ HttpErrorKind.RuntimeError ≠ HttpErrorKind.InvalidDriver := by
  decide

/-- C9, amended: the conversion is a total function (so it cannot panic); each
of the thirteen codes named by its match arms maps to the matching
`HttpErrorKind` variant, and every other value — including the `HttpError`
codes for `Success`, `InvalidDriver` and `HeadersValidationError`, which the
conversion does not name — maps to `RuntimeError`. -/
theorem C9_from_u32_amended :
    namedHttpErrorCodes.map httpErrorKindFromU32 =
      [.InvalidHandle, .MemoryAccessError, .BufferTooSmall, .HeaderNotFound,
       .Utf8Error, .DestinationNotAllowed, .InvalidMethod, .InvalidEncoding,
       .InvalidUrl, .RequestError, .RuntimeError, .TooManySessions,
       .PermissionDeny]
    ∧ ∀ i : Nat, i ∉ namedHttpErrorCodes →
        httpErrorKindFromU32 i = .RuntimeError := by
  refine ⟨by decide, ?_⟩
  intro i hi
  simp only [namedHttpErrorCodes, WireHttpError.code, List.mem_cons,
    List.not_mem_nil, or_false, not_or] at hi
  obtain ⟨h1, h2, h3, h4, h5, h6, h7, h8, h9, h10, h11, h12, h13⟩ := hi
  simp [httpErrorKindFromU32, WireHttpError.code,
    h1, h2, h3, h4, h5, h6, h7, h8, h9, h10, h11, h12, h13]

/-- C9 witness: an out-of-range code defaults to `RuntimeError`. -/
theorem C9_from_u32_amended_witness :
    httpErrorKindFromU32 999 = HttpErrorKind.RuntimeError :=
  C9_from_u32_amended.2 999 (by decide)

/-- C4: contrary to the claim that `socket_create` returns a handle or a
socket-domain error kind and never aborts, the source body is `todo!()`: for
every address family and socket type the call panics. -/
theorem C4_socket_create_panics :
    ∀ (family : AddressFamily) (stype : SocketType),
      socket_create family stype = SocketCreateOutcome.panicked :=
  fun _ _ => rfl

/-- C3: the permission check strictly precedes the driver call in
`WasiCtx::http_req`.  If the URL parses and `check_url_permissions` denies it,
the call returns `PermissionDeny` with an empty event trace (no driver
operation, hence no socket I/O, happens on behalf of the request); and any
driver invocation in the trace implies a successful permission check on the
parsed URL. -/
theorem C3_permission_precedes_driver :
    (∀ (env : HttpReqEnv) (u p : String),
      env.readUrl = .ok u → env.parseUrl u = some p →
      env.checkPerm p = false →
      http_req env = ([], .error .PermissionDeny))
    ∧ ∀ (env : HttpReqEnv) (url opts : String),
      BridgeEvent.driverCall url opts ∈ (http_req env).1 →
      ∃ u p, env.readUrl = .ok u ∧ env.parseUrl u = some p
        ∧ env.checkPerm p = true := by
  constructor
  · intro env u p hu hp hperm
    simp [http_req, hu, hp, hperm]
  · intro env url opts hmem
    unfold http_req at hmem
    split at hmem
    · simp at hmem
    · next u hu =>
      split at hmem
      · simp at hmem
      · next p hp =>
        split at hmem
        · simp at hmem
        · next hperm =>
          have hpt : env.checkPerm p = true := by
            cases hb : env.checkPerm p with
            | false => exact absurd hb hperm
            | true => rfl
          split at hmem
          · simp at hmem
          · next opts0 hopts =>
            exact ⟨u, p, hu, hp, hpt⟩

/-! ### Raw HTTP/1.1 client (blockless-drivers/src/ipfs_driver/http_raw.rs)

Bytes are `Nat` values below 256; a transport read stream is the list of byte
fragments successive `read_buf` calls deliver (an exhausted stream models
`read_buf` returning `Ok(0)` at EOF). -/

/-- `httparse::parse_chunk_size` (external collaborator of `read_bulks`),
translated from the httparse crate: scan hexadecimal digits, allow an
extension after a semicolon and linear whitespace between size and extension,
finish at CRLF returning the offset just past the LF together with the parsed
size; report `needMore` when the buffer ends mid-line and `invalid` on a
malformed byte or a size of more than 16 hex digits. -/
inductive ChunkStatus where
  | invalid
  | needMore
  | complete (pos : Nat) (size : Nat)
  deriving DecidableEq

def isHexDigitByte (b : Nat) : Bool :=
  (48 ≤ b && b ≤ 57) || (97 ≤ b && b ≤ 102) || (65 ≤ b && b ≤ 70)

def hexDigitVal (b : Nat) : Nat :=
  if 48 ≤ b && b ≤ 57 then b - 48
  else if 97 ≤ b && b ≤ 102 then b - 87
  else b - 55

def parseChunkSizeGo :
    List Nat → Nat → Nat → Nat → Bool → Bool → ChunkStatus
  | [], _, _, _, _, _ => .needMore
  | b :: rest, pos, size, count, inChunkSize, inExt =>
    if inChunkSize && isHexDigitByte b then
      if count > 15 then .invalid
      else parseChunkSizeGo rest (pos + 1) (size * 16 + hexDigitVal b)
        (count + 1) inChunkSize inExt
    else if b == 13 then
      match rest with
      | [] => .needMore
      | b2 :: _ => if b2 == 10 then .complete (pos + 2) size else .invalid
    else if (b == 59) && !inExt then
      parseChunkSizeGo rest (pos + 1) size count false true
    else if (b == 9 || b == 32) && !inExt && inChunkSize then
      parseChunkSizeGo rest (pos + 1) size count false inExt
    else if (b == 9 || b == 32) && !inExt && !inChunkSize then
      parseChunkSizeGo rest (pos + 1) size count inChunkSize inExt
    else if inExt then
      parseChunkSizeGo rest (pos + 1) size count inChunkSize inExt
    else .invalid

def parse_chunk_size (l : List Nat) : ChunkStatus :=
  parseChunkSizeGo l 0 0 0 true false

inductive BulkResult where
  | ok (chunks : List (List Nat))
  | err
  | panicked
  | fuelOut
  deriving DecidableEq

/-- `HttpRaw::read_bulks` (http_raw.rs 132-173).  The state is the remaining
transport fragments, the buffered `body_bulk` bytes, and the accumulated
chunks; the first component of the result lists the fragments actually read.

Each loop iteration follows the source: parse a chunk-size line; on a partial
parse, `read_buf` appends the next fragment (nothing at EOF) and the loop
retries; a zero size returns the accumulated chunks.  Otherwise, when
`chunk_len` exceeds the bytes buffered past the size line, the source calls
`read_exact(&mut buf)` on a `Vec` that has capacity but **length zero**, so
nothing is read, and the following `split_to(chunk_len)` asserts
`at <= len` and panics (`.panicked`); when the payload is buffered, the size
line is stripped, the payload split off, a trailing CRLF (if buffered)
stripped, and the chunk pushed.  `fuelOut` models non-termination of the
source loop (it spins when the stream is exhausted mid-line). -/
def read_bulks :
    Nat → List (List Nat) → List Nat → List (List Nat) →
    List (List Nat) × BulkResult
  | 0, _, _, _ => ([], .fuelOut)
  | fuel + 1, stream, body, acc =>
    match parse_chunk_size body with
    | .invalid => ([], .err)
    | .needMore =>
      match stream with
      | [] => read_bulks fuel [] body acc
      | f :: rest =>
        let r := read_bulks fuel rest (body ++ f) acc
        (f :: r.1, r.2)
    | .complete pos size =>
      if size = 0 then ([], .ok acc)
      else
        let rest1 := body.drop pos
        if rest1.length < size then ([], .panicked)
        else
          let data := rest1.take size
          let rest2 := rest1.drop size
          let rest3 :=
            if 2 ≤ rest2.length ∧ rest2.take 2 = [13, 10]
            then rest2.drop 2 else rest2
          read_bulks fuel stream rest3 (acc ++ [data])

/-- The bytes of an ASCII string. -/
def asBytes (s : String) : List Nat := s.data.map Char.toNat

def wikipediaChunked : List Nat := asBytes "4\r\nWiki\r\n5\r\npedia\r\n0\r\n\r\n"

/-- C3 witness: a concrete environment whose permission check denies the URL;
the bridge returns `PermissionDeny` with an empty event trace. -/
theorem C3_permission_precedes_driver_witness :
    http_req ⟨.ok "http://denied.host/x", fun s => some s, fun _ => false,
        .ok "", fun _ _ => .ok (1, 200)⟩ = ([], .error .PermissionDeny) :=
  C3_permission_precedes_driver.1
    ⟨.ok "http://denied.host/x", fun s => some s, fun _ => false,
      .ok "", fun _ _ => .ok (1, 200)⟩
    "http://denied.host/x" "http://denied.host/x" rfl rfl rfl

/-- C1: the chunked decoder is not correct for arbitrary read fragmentation.
On the claim's own example stream `"4\r\nWiki\r\n5\r\npedia\r\n0\r\n\r\n"`:
delivered as a single read, `read_bulks` returns the chunk payloads `"Wiki"`,
`"pedia"` (whose concatenation is `"Wikipedia"`); delivered one byte per
read, the chunk-size line `"4\r\n"` completes while no payload byte is
buffered, the source's `read_exact` into a length-zero `Vec` reads nothing,
and `BytesMut::split_to(4)` panics. -/
theorem C1_read_bulks_single_read_ok_bytewise_panics :
    (read_bulks 50 [wikipediaChunked] [] []).2
        = BulkResult.ok [asBytes "Wiki", asBytes "pedia"]
    ∧ asBytes "Wiki" ++ asBytes "pedia" = asBytes "Wikipedia"
    ∧ (read_bulks 50 (wikipediaChunked.map (fun b => [b])) [] []).2
        = BulkResult.panicked := by
  refine ⟨by decide, by decide, by decide⟩

/-! ### HttpRaw sessions: request serialization and session operations

The `HttpRaw` struct holds a parsed `url::Url`, which enters the model through
its observations used by the client (`host_str`, `port_or_known_default`,
`path`, `query`); the transport is `None` until `connect` succeeds.  Strings
here are ASCII, so `String.length` agrees with the source's byte lengths. -/

def crlf : String := "\r\n"

structure TcpStreamM where
  frags : List (List Nat)
  writeOk : Bool

structure HttpRaw where
  urlHost : Option String
  urlPortOrDefault : Option Nat
  urlPath : String
  urlQuery : Option String
  method : String
  boundary : Option String
  header : List (String × List String)
  tcp_stream : Option TcpStreamM

/-- `HttpRaw::insert_header`: push onto an existing entry's vector, else
insert a fresh single-value entry. -/
def appendHeaderVal :
    List (String × List String) → String → String → List (String × List String)
  | [], k, v => [(k, [v])]
  | (k0, vs) :: rest, k, v =>
    if k0 = k then (k0, vs ++ [v]) :: rest
    else (k0, vs) :: appendHeaderVal rest k v

def HttpRaw.insert_header (s : HttpRaw) (k v : String) : HttpRaw :=
  { s with header := appendHeaderVal s.header k v }

def strConcat : List String → String
  | [] => ""
  | s :: rest => s ++ strConcat rest

/-- `format!(":{}", p)` appended to the host when
`port_or_known_default()` is `Some`. -/
def hostPortSuffix : Option Nat → String
  | none => ""
  | some p => ":" ++ toString p

/-- The temporary `headers` map of `HttpRaw::header_raw` (http_raw.rs 50-73):
insert `Host` (when the URL has a host) and `Accept`, then `extend` with the
session's own header map, whose entries replace the defaults on key
collision. -/
def HttpRaw.headersMap (s : HttpRaw) : List (String × List String) :=
  let m0 : List (String × List String) :=
    match s.urlHost with
    | none => []
    | some h => updateAssoc [] "Host" [h ++ hostPortSuffix s.urlPortOrDefault]
  let m1 := updateAssoc m0 "Accept" ["*/*"]
  s.header.foldl (fun m kv => updateAssoc m kv.1 kv.2) m1

/-- One serialized header line: `write_all(format!("k: v"))` then CRLF. -/
def headerLine (k v : String) : String := k ++ ": " ++ v ++ crlf

/-- The CRLF-terminated lines one key of the map contributes: one
`"key: value"` line per value in its vector. -/
def headerLinesFor (m : List (String × List String)) (k : String) :
    List String :=
  match m.lookup k with
  | none => []
  | some vs => vs.map (headerLine k)

/-- `HttpRaw::header_raw`: iterate the `HashMap` in `order` (Rust `HashMap`
iteration order is unspecified, so it is a parameter ranging over the
permutations of the map's keys) and write each entry's lines. -/
def HttpRaw.header_raw (s : HttpRaw) (order : List String) : String :=
  strConcat (order.flatMap (headerLinesFor s.headersMap))

/-- The request line written by `HttpRaw::get_req_raw` (http_raw.rs 217-232):
method, space, path, the `?`-prefixed query when present, space, the literal
`HTTP/1.1`, CRLF. -/
def requestLine (s : HttpRaw) : String :=
  s.method ++ " " ++ s.urlPath ++
    (match s.urlQuery with | none => "" | some q => "?" ++ q) ++
    " " ++ "HTTP/1.1" ++ crlf

/-- `HttpRaw::get_req_raw`: the request line followed by `header_raw`; no
further bytes are appended. -/
def HttpRaw.get_req_raw (s : HttpRaw) (order : List String) : String :=
  requestLine s ++ s.header_raw order

/-- The caller-supplied header lines, in the claim's order. -/
def specCallerHeaderLines (s : HttpRaw) : List String :=
  s.header.flatMap (fun kv => kv.2.map (headerLine kv.1))

/-- The header lines in the order the claim states them: `Host`, then the
default `Accept`, then the caller-supplied headers. -/
def specClaimedLines (s : HttpRaw) : List String :=
  (match s.urlHost with
   | none => []
   | some h => [headerLine "Host" (h ++ hostPortSuffix s.urlPortOrDefault)]) ++
  [headerLine "Accept" "*/*"] ++ specCallerHeaderLines s

/-- The serialization the claim describes, written from the claim's words:
request line, `Host` header, default `Accept`, caller headers, each line CRLF
terminated, ending with a blank line before any body. -/
def specClaimedReqRaw (s : HttpRaw) : String :=
  requestLine s ++ strConcat (specClaimedLines s) ++ crlf

/-! `write_boundary` and `read_response` (http_raw.rs 99-121 and 175-215). -/

def boundary_begin (b : String) : String :=
  "--" ++ b ++ crlf ++ "Content-Disposition: form-data" ++ crlf ++
    "Content-Type: application/octet-stream" ++ crlf ++ crlf

def boundary_end (b : String) : String :=
  crlf ++ "--" ++ b ++ "--" ++ crlf

/-- `HttpRaw::write_boundary`: fails with `RequestError` when the session has
no transport or no boundary, before any byte is written; otherwise writes the
`Content-Length` and multipart `Content-Type` headers, the blank line and the
boundary-wrapped payload in one `write_all`, whose transport failure also
maps to `RequestError`.  The first component lists the writes performed. -/
def HttpRaw.write_boundary (s : HttpRaw) (val : String) :
    List String × Except IpfsErrorKind Nat :=
  match s.tcp_stream with
  | none => ([], .error .RequestError)
  | some t =>
    match s.boundary with
    | none => ([], .error .RequestError)
    | some b =>
      let bodyBuf := boundary_begin b ++ val ++ boundary_end b
      let buf := "Content-Length: " ++ toString bodyBuf.length ++ crlf ++
        "Content-Type: multipart/form-data; boundary=" ++ b ++ crlf ++ crlf ++
        bodyBuf
      if t.writeOk then ([buf], .ok val.length)
      else ([buf], .error .RequestError)

/-- Result of one `httparse::Response::parse` attempt (external collaborator
of `read_response`, abstracted as an oracle receiving the loop index `i` — the
source allots `128 * i` header slots on attempt `i` — and the buffered
bytes). -/
inductive RespStatus where
  | rerror
  | more
  | done (pos : Nat) (code : Nat)

structure RespLoopState where
  events : List (List Nat)
  frags : List (List Nat)
  bulk : List Nat
  result : Except IpfsErrorKind (Nat × Nat)

/-- The header phase of `read_response`: `for i in 1..10`, read a fragment
(nothing at EOF), extend the buffer, parse; a parse error maps to
`RequestError`, a complete parse breaks with the header length and status
code, and an exhausted loop falls through with `parsed_pos = 0` and
`status_code = 0` as in the source.  The countdown argument starts at `9`;
the loop index is `10` minus the countdown. -/
def readRespLoop (parse : Nat → List Nat → RespStatus) :
    Nat → List (List Nat) → List Nat → RespLoopState
  | 0, frags, bulk => ⟨[], frags, bulk, .ok (0, 0)⟩
  | c + 1, frags, bulk =>
    let i := 10 - (c + 1)
    let fr : List Nat × List (List Nat) :=
      match frags with | [] => ([], []) | f :: r => (f, r)
    let bulk2 := bulk ++ fr.1
    match parse i bulk2 with
    | .rerror => ⟨[fr.1], fr.2, bulk2, .error .RequestError⟩
    | .more =>
      let r := readRespLoop parse c fr.2 bulk2
      ⟨fr.1 :: r.events, r.frags, r.bulk, r.result⟩
    | .done pos code => ⟨[fr.1], fr.2, bulk2, .ok (pos, code)⟩

inductive RespOutcome where
  | ok (code : Nat) (body : List Nat)
  | err (k : IpfsErrorKind)
  | panicked
  | fuelOut
  deriving DecidableEq

/-- `HttpRaw::read_response`: fails with `RequestError` when the session has
no transport, before any read; otherwise runs the header phase, splits the
buffered remainder after the parsed header length off as the initial body
bytes, decodes the chunked body with `read_bulks` and concatenates the chunk
payloads. -/
def HttpRaw.read_response (s : HttpRaw) (parse : Nat → List Nat → RespStatus)
    (fuel : Nat) : List (List Nat) × RespOutcome :=
  match s.tcp_stream with
  | none => ([], .err .RequestError)
  | some t =>
    let r := readRespLoop parse 9 t.frags []
    match r.result with
    | .error e => (r.events, .err e)
    | .ok (pos, _code) =>
      let bodyBulk := r.bulk.drop pos
      let br := read_bulks fuel r.frags bodyBulk []
      match br.2 with
      | .ok chunks => (r.events ++ br.1, .ok _code chunks.flatten)
      | .err => (r.events ++ br.1, .err .RequestError)
      | .panicked => (r.events ++ br.1, .panicked)
      | .fuelOut => (r.events ++ br.1, .fuelOut)

/-! Helper lemmas for the serialization claims. -/

theorem updateAssoc_of_not_mem {β : Type} (l : List (String × β)) (k : String)
    (v : β) (h : k ∉ l.map Prod.fst) : updateAssoc l k v = l ++ [(k, v)] := by
  induction l with
  | nil => simp [updateAssoc]
  | cons hd tl ih =>
    rcases hd with ⟨k0, v0⟩
    simp only [List.map_cons, List.mem_cons, not_or] at h
    simp only [updateAssoc]
    rw [if_neg (fun hh => h.1 hh.symm)]
    simp [ih h.2]

theorem flatMap_congr_mem {α β : Type} (l : List α) (f g : α → List β)
    (h : ∀ a ∈ l, f a = g a) : l.flatMap f = l.flatMap g := by
  induction l with
  | nil => simp
  | cons hd tl ih =>
    simp only [List.flatMap_cons]
    rw [h hd (by simp), ih (fun a ha => h a (by simp [ha]))]

theorem foldl_updateAssoc_fresh {β : Type} :
    ∀ (l m : List (String × β)),
    (∀ kv ∈ l, kv.1 ∉ m.map Prod.fst) →
    (l.map Prod.fst).Nodup →
    l.foldl (fun acc kv => updateAssoc acc kv.1 kv.2) m = m ++ l
  | [], m, _, _ => by simp
  | kv :: rest, m, hfresh, hnd => by
    simp only [List.foldl_cons]
    rw [updateAssoc_of_not_mem m kv.1 kv.2 (hfresh kv (by simp))]
    simp only [List.map_cons, List.nodup_cons] at hnd
    have hfresh2 : ∀ kv' ∈ rest, kv'.1 ∉ (m ++ [kv]).map Prod.fst := by
      intro kv' hkv'
      simp only [List.map_append, List.mem_append, List.map_cons, List.map_nil,
        List.mem_cons, List.not_mem_nil, or_false, not_or]
      refine ⟨hfresh kv' (List.mem_cons_of_mem _ hkv'), fun hh => hnd.1 ?_⟩
      exact hh ▸ List.mem_map.mpr ⟨kv', hkv', rfl⟩
    rw [foldl_updateAssoc_fresh rest (m ++ [kv]) hfresh2 hnd.2]
    simp

theorem flatMap_headerLinesFor_keys :
    ∀ (m : List (String × List String)), (m.map Prod.fst).Nodup →
    (m.map Prod.fst).flatMap (headerLinesFor m)
      = m.flatMap (fun kv => kv.2.map (headerLine kv.1))
  | [], _ => by simp [headerLinesFor]
  | (k, vs) :: rest, hnd => by
    simp only [List.map_cons, List.nodup_cons] at hnd
    simp only [List.map_cons, List.flatMap_cons]
    have h1 : headerLinesFor ((k, vs) :: rest) k = vs.map (headerLine k) := by
      simp [headerLinesFor, List.lookup]
    have h2 : (rest.map Prod.fst).flatMap (headerLinesFor ((k, vs) :: rest))
        = (rest.map Prod.fst).flatMap (headerLinesFor rest) := by
      apply flatMap_congr_mem
      intro x hx
      have hxk : (x == k) = false :=
        beq_eq_false_iff_ne.mpr (fun hh => hnd.1 (hh ▸ hx))
      simp [headerLinesFor, List.lookup, hxk]
    rw [h1, h2, flatMap_headerLinesFor_keys rest hnd.2]

theorem strConcat_length : ∀ (l : List String),
    (strConcat l).length = (l.map String.length).sum
  | [] => by simp [strConcat]
  | s :: rest => by
    simp [strConcat, strConcat_length rest]

def c7Session : HttpRaw :=
  ⟨some "example.com", some 80, "/a", some "b=c", "GET", none, [], none⟩

/-- C7, counterexample: for the session built from `http://example.com/a?b=c`
with no caller headers (so the temporary map holds exactly the keys `Host` and
`Accept`, and both of its iteration orders are listed), the bytes
`get_req_raw` produces differ from the claimed serialization: the source never
writes the terminating blank line. -/
theorem C7_counterexample :
    c7Session.get_req_raw ["Host", "Accept"] ≠ specClaimedReqRaw c7Session
    ∧ c7Session.get_req_raw ["Accept", "Host"] ≠ specClaimedReqRaw c7Session := by
  constructor <;> decide

/-- C7, amended: the serialized request is the claimed request line followed
by exactly the claimed header lines — the `Host` header derived from the URL
host and default-or-explicit port, the default `Accept: */*`, and the
caller-supplied headers (assumed here not to override the two defaults), each
CRLF-terminated — but in an unspecified `HashMap` iteration order rather than
the claimed order, and without the claimed terminating blank line: for every
iteration order the code's output is exactly two bytes (the final CRLF)
shorter than the claimed serialization. -/
theorem C7_request_serialization_amended :
    ∀ (s : HttpRaw) (hostName : String) (order : List String),
      s.urlHost = some hostName →
      (∀ kv ∈ s.header, kv.1 ≠ "Host" ∧ kv.1 ≠ "Accept") →
      (s.header.map Prod.fst).Nodup →
      List.Perm order (s.headersMap.map Prod.fst) →
      List.Perm (order.flatMap (headerLinesFor s.headersMap))
          (specClaimedLines s)
      ∧ (specClaimedReqRaw s).length = (s.get_req_raw order).length + 2 := by
  intro s hostName order hhost hfresh hnd hperm
  have hbase : s.headersMap
      = ("Host", [hostName ++ hostPortSuffix s.urlPortOrDefault])
        :: ("Accept", ["*/*"]) :: s.header := by
    have h1 : updateAssoc (updateAssoc ([] : List (String × List String))
        "Host" [hostName ++ hostPortSuffix s.urlPortOrDefault])
        "Accept" ["*/*"]
        = [("Host", [hostName ++ hostPortSuffix s.urlPortOrDefault]),
           ("Accept", ["*/*"])] := by
      simp [updateAssoc]
    have hf2 : ∀ kv ∈ s.header, kv.1 ∉
        ([("Host", [hostName ++ hostPortSuffix s.urlPortOrDefault]),
          ("Accept", ["*/*"])] : List (String × List String)).map Prod.fst := by
      intro kv hkv
      have h := hfresh kv hkv
      simp [h.1, h.2]
    simp only [HttpRaw.headersMap, hhost]
    rw [h1, foldl_updateAssoc_fresh s.header _ hf2 hnd]
    simp
  have hlines : specClaimedLines s
      = s.headersMap.flatMap (fun kv => kv.2.map (headerLine kv.1)) := by
    rw [hbase]
    simp [specClaimedLines, specCallerHeaderLines, hhost]
  have hndm : (s.headersMap.map Prod.fst).Nodup := by
    rw [hbase]
    simp only [List.map_cons, List.nodup_cons]
    refine ⟨?_, ?_, hnd⟩
    · simp only [List.mem_cons, not_or]
      refine ⟨by decide, ?_⟩
      intro hmem
      rcases List.mem_map.mp hmem with ⟨kv, hkv, hk⟩
      exact (hfresh kv hkv).1 hk
    · intro hmem
      rcases List.mem_map.mp hmem with ⟨kv, hkv, hk⟩
      exact (hfresh kv hkv).2 hk
  have hfinal : List.Perm (order.flatMap (headerLinesFor s.headersMap))
      (specClaimedLines s) := by
    rw [hlines, ← flatMap_headerLinesFor_keys s.headersMap hndm]
    exact hperm.flatMap_right _
  refine ⟨hfinal, ?_⟩
  have hsum :
      ((order.flatMap (headerLinesFor s.headersMap)).map String.length).sum
      = ((specClaimedLines s).map String.length).sum :=
    (hfinal.map String.length).sum_eq
  have hcr : crlf.length = 2 := rfl
  simp only [specClaimedReqRaw, HttpRaw.get_req_raw, HttpRaw.header_raw,
    String.length_append, strConcat_length, hsum, hcr]

/-- C7 witness: the amended statement evaluated at a session with one caller
header and a concrete iteration order. -/
theorem C7_request_serialization_amended_witness :
    List.Perm ((["Accept", "X-Key", "Host"] : List String).flatMap
        (headerLinesFor (HttpRaw.headersMap
          ⟨some "example.com", some 80, "/a", some "b=c", "GET", none,
            [("X-Key", ["v1"])], none⟩)))
      (specClaimedLines
        ⟨some "example.com", some 80, "/a", some "b=c", "GET", none,
          [("X-Key", ["v1"])], none⟩)
    ∧ (specClaimedReqRaw
        ⟨some "example.com", some 80, "/a", some "b=c", "GET", none,
          [("X-Key", ["v1"])], none⟩).length
      = (HttpRaw.get_req_raw
          ⟨some "example.com", some 80, "/a", some "b=c", "GET", none,
            [("X-Key", ["v1"])], none⟩ ["Accept", "X-Key", "Host"]).length
        + 2 :=
  C7_request_serialization_amended
    ⟨some "example.com", some 80, "/a", some "b=c", "GET", none,
      [("X-Key", ["v1"])], none⟩
    "example.com" ["Accept", "X-Key", "Host"] rfl
    (by decide) (by decide) (by decide)

/-- C8: operations on a session whose transport was never established
(`tcp_stream` is `None`) fail with the `RequestError` kind before any I/O is
attempted: both `write_boundary` and `read_response` return `RequestError`
with an empty I/O trace, for every payload, parser behavior and fuel. -/
theorem C8_no_transport_fails_without_io :
    (∀ (s : HttpRaw) (val : String), s.tcp_stream = none →
      s.write_boundary val = ([], .error .RequestError))
    ∧ ∀ (s : HttpRaw) (parse : Nat → List Nat → RespStatus) (fuel : Nat),
      s.tcp_stream = none →
      s.read_response parse fuel = ([], .err .RequestError) := by
  constructor
  · intro s val h
    simp [HttpRaw.write_boundary, h]
  · intro s parse fuel h
    simp [HttpRaw.read_response, h]

/-- C8 witness: a concrete unconnected session fails both operations with
`RequestError` and no I/O events. -/
theorem C8_no_transport_fails_without_io_witness :
    HttpRaw.write_boundary
        ⟨some "h", some 5001, "/", none, "POST", some "xyz", [], none⟩ "data"
      = ([], .error .RequestError)
    ∧ HttpRaw.read_response
        ⟨some "h", some 5001, "/", none, "POST", some "xyz", [], none⟩
        (fun _ _ => .more) 10
      = ([], .err .RequestError) :=
  ⟨C8_no_transport_fails_without_io.1
      ⟨some "h", some 5001, "/", none, "POST", some "xyz", [], none⟩ "data" rfl,
   C8_no_transport_fails_without_io.2
      ⟨some "h", some 5001, "/", none, "POST", some "xyz", [], none⟩
      (fun _ _ => .more) 10 rfl⟩
